import Mathlib

/-!
Shallow embedding of the stopwatch engine of `src/main.rs` (databoose/stopwatch-rs).

`Time` embeds the Rust struct `Time` (four `u16` fields); `u16` arithmetic is
modelled on `Nat` with an explicit `% 65536` at each increment, matching the
wrapping semantics of release-mode `u16` addition.  `counterTick` embeds one
iteration of the loop body of `async fn counter` (main.rs:126-154), the only
mutation ever applied to a `Time`; `clockIterate n` is the state after `n`
such advances starting from the zeroed clock produced by `Time::new`.

`State` embeds the Rust struct `State` (main.rs:54-124) and its methods
`add_timer`, `remove_timer`, `next_timer`, `toggle_help` and `set_label`.
The `tokio::task::JoinHandle<()>` stored in a `Timer` is modelled as
`Option Unit` (the engine only stores it and aborts it; aborting does not
change the engine state).  `State::new` reads `env::args()`; the embedding
takes that argument list (program name included) as an explicit parameter.
Rust `Vec` indexing panics out of bounds; the embedding uses the total
`List.eraseIdx` / `List.modify`, which agree with the source whenever
`selected_timer` is in bounds, as the registry invariant guarantees.
-/

structure Time where
  second : Nat
  minute : Nat
  hour : Nat
  days : Nat
deriving DecidableEq

def Time.new : Time := { second := 0, minute := 0, hour := 0, days := 0 }

/-- One iteration of the loop body of `counter` (main.rs:133-153): increment
`second` and cascade the carries at radix 60, 60, 24 into `days`. -/
def counterTick (t : Time) : Time :=
  if 59 < (t.second + 1) % 65536 then
    if 59 < (t.minute + 1) % 65536 then
      if 23 < (t.hour + 1) % 65536 then
        { second := 0, minute := 0, hour := 0, days := (t.days + 1) % 65536 }
      else
        { second := 0, minute := 0, hour := (t.hour + 1) % 65536, days := t.days }
    else
      { second := 0, minute := (t.minute + 1) % 65536, hour := t.hour, days := t.days }
  else
    { second := (t.second + 1) % 65536, minute := t.minute, hour := t.hour, days := t.days }

/-- The clock after `n` ticks of `counter` starting from `Time::new`. -/
def clockIterate (n : Nat) : Time := counterTick^[n] Time.new

/-- Closed form of the clock state reached after `n` ticks. -/
def toTime (n : Nat) : Time :=
  { second := n % 60, minute := n / 60 % 60, hour := n / 3600 % 24, days := n / 86400 % 65536 }

structure Timer where
  timer_state : Time
  label : Option String
  task_handle : Option Unit
deriving DecidableEq

/-- Embeds `Timer::new` (main.rs:45-51). -/
def Timer.new (label : Option String) : Timer :=
  { timer_state := Time.new, label := label, task_handle := none }

structure State where
  timers : List Timer
  selected_timer : Nat
  ui_update_rate_ms : Nat
  input_mode : Bool
  input_buffer : String
  show_help : Bool
deriving DecidableEq

/-- Embeds `State::new` (main.rs:65-82); `args` is `env::args()`, program name
included.  The label is `Some(args[1])` exactly when `args.len() == 2`. -/
def State.new (args : List String) : State :=
  { timers := [Timer.new (if h : args.length = 2 then some (args.get ⟨1, by omega⟩) else none)],
    selected_timer := 0,
    ui_update_rate_ms := 50,
    input_mode := false,
    input_buffer := "",
    show_help := true }

/-- Embeds `State::add_timer` (main.rs:84-89). -/
def State.add_timer (s : State) : State :=
  if s.timers.length < 8 then
    let ts := s.timers ++ [Timer.new none]
    { s with timers := ts, selected_timer := ts.length - 1 }
  else s

/-- Embeds `State::remove_timer` (main.rs:91-103); aborting the tokio task does
not change the engine state. -/
def State.remove_timer (s : State) : State :=
  if 1 < s.timers.length then
    let ts := s.timers.eraseIdx s.selected_timer
    { s with timers := ts,
             selected_timer := if ts.length ≤ s.selected_timer then ts.length - 1
                               else s.selected_timer }
  else s

/-- Embeds `State::toggle_help` (main.rs:105-107). -/
def State.toggle_help (s : State) : State := { s with show_help := !s.show_help }

/-- Embeds `State::next_timer` (main.rs:109-113). -/
def State.next_timer (s : State) : State :=
  if s.timers.isEmpty then s
  else { s with selected_timer := (s.selected_timer + 1) % s.timers.length }

/-- Embeds `State::set_label` (main.rs:115-123). -/
def State.set_label (s : State) : State :=
  { s with
    timers := s.timers.modify
      (fun t => { t with label := if s.input_buffer.isEmpty then none
                                  else some s.input_buffer })
      s.selected_timer,
    input_buffer := "",
    input_mode := false }

/-- The registry invariant of the spec: between 1 and 8 timers, and the
selection index in bounds. -/
abbrev RegistryInv (s : State) : Prop :=
  1 ≤ s.timers.length ∧ s.timers.length ≤ 8 ∧ s.selected_timer < s.timers.length

/-- A concrete three-timer registry used to instantiate the theorems. -/
def sampleState : State :=
  { timers := [{ timer_state := ⟨5, 1, 0, 0⟩, label := none, task_handle := some () },
               { timer_state := ⟨10, 2, 0, 0⟩, label := some "work", task_handle := some () },
               { timer_state := ⟨7, 0, 3, 1⟩, label := none, task_handle := none }],
    selected_timer := 1,
    ui_update_rate_ms := 50,
    input_mode := false,
    input_buffer := "",
    show_help := true }

/-- A concrete registry at capacity, in input mode, used to instantiate the
theorems. -/
def sampleFull : State :=
  { timers := List.replicate 8 (Timer.new none),
    selected_timer := 7,
    ui_update_rate_ms := 50,
    input_mode := true,
    input_buffer := "pomodoro",
    show_help := false }

theorem counterTick_toTime (n : Nat) : counterTick (toTime n) = toTime (n + 1) := by
  unfold counterTick toTime
  dsimp only
  repeat' split
  all_goals simp only [Time.mk.injEq]
  all_goals refine ⟨by omega, by omega, by omega, by omega⟩

theorem clockIterate_eq_toTime (n : Nat) : clockIterate n = toTime n := by
  induction n with
  | zero => rfl
  | succ k ih =>
      have h : clockIterate (k + 1) = counterTick (clockIterate k) :=
        Function.iterate_succ_apply' counterTick k Time.new
      rw [h, ih, counterTick_toTime]

/-- C1 (counterexample): the claim that `days` never wraps is false for the
sequence of 5662310400 = 65536·86400 advances from the zero state: `days`
holds 65535 after 5662310399 advances and wraps to 0 on the next advance,
so it is not monotonically non-decreasing. -/
theorem clock_days_wrap_cex :
    (clockIterate 5662310399).days = 65535 ∧ (clockIterate 5662310400).days = 0 ∧
      (clockIterate 5662310400).days < (clockIterate 5662310399).days := by
  rw [clockIterate_eq_toTime, clockIterate_eq_toTime]
  refine ⟨by norm_num [toTime], by norm_num [toTime], by norm_num [toTime]⟩

/-- C1 (amended): after any number of `advance()` calls from the zero state the
fields satisfy `second < 60`, `minute < 60`, `hour < 24`, and across each
single advance `days` either does not decrease or wraps from the `u16`
maximum 65535 to 0. -/
theorem clock_field_ranges_and_days_monotone (n : Nat) :
    (clockIterate n).second < 60 ∧ (clockIterate n).minute < 60 ∧
      (clockIterate n).hour < 24 ∧
      ((clockIterate n).days ≤ (clockIterate (n + 1)).days ∨
        ((clockIterate n).days = 65535 ∧ (clockIterate (n + 1)).days = 0)) := by
  rw [clockIterate_eq_toTime, clockIterate_eq_toTime]
  unfold toTime
  dsimp only
  refine ⟨by omega, by omega, by omega, by omega⟩

/-- C2: exactly 86400 `advance()` calls from the zero state give the clock
`{second := 0, minute := 0, hour := 0, days := 1}`. -/
theorem clock_86400_ticks_is_one_day :
    clockIterate 86400 = { second := 0, minute := 0, hour := 0, days := 1 } := by
  rw [clockIterate_eq_toTime]
  rfl

/-- C3: `State::new` establishes the registry invariant
`1 ≤ len(timers) ≤ 8 ∧ selected < len(timers)`, and each of `add_timer`,
`remove_timer`, `next_timer` and `set_label` preserves it; in particular the
registry is never empty after initialization. -/
theorem registry_ops_preserve_inv (args : List String) (s : State) (h : RegistryInv s) :
    RegistryInv (State.new args) ∧ RegistryInv s.add_timer ∧ RegistryInv s.remove_timer ∧
      RegistryInv s.next_timer ∧ RegistryInv s.set_label := by
  obtain ⟨h1, h2, h3⟩ := h
  refine ⟨⟨by simp [State.new], by simp [State.new], by simp [State.new]⟩, ?_, ?_, ?_, ?_⟩
  · unfold State.add_timer
    dsimp only
    split
    · refine ⟨?_, ?_, ?_⟩ <;>
        simp only [List.length_append, List.length_cons, List.length_nil] <;> omega
    · exact ⟨h1, h2, h3⟩
  · unfold State.remove_timer
    split
    · rename_i hgt
      have hlen : (s.timers.eraseIdx s.selected_timer).length = s.timers.length - 1 :=
        List.length_eraseIdx_of_lt h3
      refine ⟨?_, ?_, ?_⟩
      · dsimp only
        omega
      · dsimp only
        omega
      · dsimp only
        split <;> omega
    · exact ⟨h1, h2, h3⟩
  · unfold State.next_timer
    split
    · exact ⟨h1, h2, h3⟩
    · exact ⟨h1, h2, Nat.mod_lt _ (by omega)⟩
  · refine ⟨?_, ?_, ?_⟩ <;> unfold State.set_label <;> dsimp only <;>
      simp only [List.length_modify] <;> omega

/-- C3 (witness): the invariant theorem instantiated on a concrete registry. -/
theorem registry_ops_preserve_inv_witness :
    RegistryInv (State.new ["stopwatch"]) ∧ RegistryInv sampleState.add_timer ∧
      RegistryInv sampleState.remove_timer ∧ RegistryInv sampleState.next_timer ∧
      RegistryInv sampleState.set_label :=
  registry_ops_preserve_inv ["stopwatch"] sampleState (by decide)

/-- C4: when the registry holds fewer than 8 timers, `add_timer` appends a
fresh unlabeled timer and selects the new last index (the old length); when it
holds exactly 8, `add_timer` leaves the whole state, in particular `len` and
`selected`, unchanged. -/
theorem add_timer_spec (s : State) :
    (s.timers.length < 8 →
      s.add_timer.timers = s.timers ++ [Timer.new none] ∧
        s.add_timer.selected_timer = s.timers.length) ∧
    (s.timers.length = 8 → s.add_timer = s) := by
  constructor
  · intro hlt
    unfold State.add_timer
    rw [if_pos hlt]
    refine ⟨rfl, ?_⟩
    dsimp only
    simp
  · intro heq
    unfold State.add_timer
    rw [if_neg (by omega)]

/-- C4 (witness): `add_timer` instantiated on a three-timer registry and on a
registry at capacity. -/
theorem add_timer_spec_witness :
    (sampleState.add_timer.timers = sampleState.timers ++ [Timer.new none] ∧
      sampleState.add_timer.selected_timer = sampleState.timers.length) ∧
      sampleFull.add_timer = sampleFull :=
  ⟨(add_timer_spec sampleState).1 (by decide), (add_timer_spec sampleFull).2 (by decide)⟩

/-- C5: with the selection in bounds, `remove_timer` on a registry of more
than one timer removes the selected slot and clamps the selection to
`min selected (newLen - 1)`; on a single-timer registry it leaves the state
unchanged. -/
theorem remove_timer_spec (s : State) (h : s.selected_timer < s.timers.length) :
    s.remove_timer =
      if 1 < s.timers.length then
        { s with timers := s.timers.eraseIdx s.selected_timer,
                 selected_timer := min s.selected_timer (s.timers.length - 2) }
      else s := by
  unfold State.remove_timer
  split
  · rename_i hgt
    have hlen : (s.timers.eraseIdx s.selected_timer).length = s.timers.length - 1 :=
      List.length_eraseIdx_of_lt h
    have hsel : (if (s.timers.eraseIdx s.selected_timer).length ≤ s.selected_timer
                 then (s.timers.eraseIdx s.selected_timer).length - 1
                 else s.selected_timer) = min s.selected_timer (s.timers.length - 2) := by
      rw [hlen]
      split <;> omega
    dsimp only
    rw [hsel]
  · rfl

/-- C5 (witness): `remove_timer` instantiated on a concrete three-timer
registry with the middle timer selected. -/
theorem remove_timer_spec_witness :
    sampleState.remove_timer =
      if 1 < sampleState.timers.length then
        { sampleState with
            timers := sampleState.timers.eraseIdx sampleState.selected_timer,
            selected_timer := min sampleState.selected_timer (sampleState.timers.length - 2) }
      else sampleState :=
  remove_timer_spec sampleState (by decide)

/-- C6: removing the selected timer of a registry, when it is neither the
first nor the last, shifts the slot previously at `selected + 1` down to
index `selected`, leaves slots below `selected` at their indices, and leaves
every surviving slot — its clock value included — unchanged. -/
theorem remove_timer_frame (s : State) (h0 : 0 < s.selected_timer)
    (h1 : s.selected_timer < s.timers.length - 1) :
    s.remove_timer.timers[s.selected_timer]? = s.timers[s.selected_timer + 1]? ∧
      (∀ j, j < s.selected_timer → s.remove_timer.timers[j]? = s.timers[j]?) ∧
      (∀ j, s.selected_timer ≤ j → s.remove_timer.timers[j]? = s.timers[j + 1]?) := by
  have hgt : 1 < s.timers.length := by omega
  have htimers : s.remove_timer.timers = s.timers.eraseIdx s.selected_timer := by
    unfold State.remove_timer
    rw [if_pos hgt]
  refine ⟨?_, ?_, ?_⟩
  · rw [htimers]
    exact List.getElem?_eraseIdx_of_ge _ _ _ (le_refl _)
  · intro j hj
    rw [htimers]
    exact List.getElem?_eraseIdx_of_lt _ _ _ hj
  · intro j hj
    rw [htimers]
    exact List.getElem?_eraseIdx_of_ge _ _ _ hj

/-- C6 (witness): the frame property instantiated on a concrete three-timer
registry with the middle timer selected. -/
theorem remove_timer_frame_witness :
    sampleState.remove_timer.timers[sampleState.selected_timer]? =
        sampleState.timers[sampleState.selected_timer + 1]? ∧
      sampleState.remove_timer.timers[0]? = sampleState.timers[0]? := by
  refine ⟨(remove_timer_frame sampleState (by decide) (by decide)).1, ?_⟩
  exact (remove_timer_frame sampleState (by decide) (by decide)).2.1 0 (by decide)

theorem next_timer_timers (s : State) : s.next_timer.timers = s.timers := by
  unfold State.next_timer
  split <;> rfl

theorem next_timer_iterate_timers (k : Nat) (s : State) :
    (State.next_timer^[k] s).timers = s.timers := by
  induction k generalizing s with
  | zero => rfl
  | succ n ih => rw [Function.iterate_succ_apply, ih, next_timer_timers]

theorem next_timer_selected (s : State) (h : s.timers ≠ []) :
    s.next_timer.selected_timer = (s.selected_timer + 1) % s.timers.length := by
  unfold State.next_timer
  rw [if_neg (by simpa using h)]

theorem next_timer_iterate_selected (k : Nat) (s : State) (h : s.timers ≠ []) :
    (State.next_timer^[k + 1] s).selected_timer =
      (s.selected_timer + (k + 1)) % s.timers.length := by
  induction k generalizing s with
  | zero =>
      rw [Function.iterate_one]
      exact next_timer_selected s h
  | succ n ih =>
      rw [Function.iterate_succ_apply]
      have hne : s.next_timer.timers ≠ [] := by rw [next_timer_timers]; exact h
      rw [ih s.next_timer hne, next_timer_timers, next_timer_selected s h,
        Nat.mod_add_mod]
      congr 1
      omega

/-- C7: whenever the selection is in bounds, applying `next_timer` once per
timer returns the selection to its original value, and every positive number
of applications keeps the selection within `[0, len)`. -/
theorem next_timer_cycles (s : State) (h : s.selected_timer < s.timers.length) :
    (State.next_timer^[s.timers.length] s).selected_timer = s.selected_timer ∧
      ∀ k, 0 < k → (State.next_timer^[k] s).selected_timer < s.timers.length := by
  have hne : s.timers ≠ [] := by
    intro he
    rw [he] at h
    simp at h
  have hlen : 0 < s.timers.length := List.length_pos.mpr hne
  constructor
  · obtain ⟨m, hm⟩ : ∃ m, s.timers.length = m + 1 := ⟨s.timers.length - 1, by omega⟩
    rw [hm, next_timer_iterate_selected m s hne, ← hm, Nat.add_mod_right]
    exact Nat.mod_eq_of_lt h
  · intro k hk
    obtain ⟨m, hm⟩ : ∃ m, k = m + 1 := ⟨k - 1, by omega⟩
    rw [hm, next_timer_iterate_selected m s hne]
    exact Nat.mod_lt _ hlen

/-- C7 (witness): circularity instantiated on a concrete three-timer
registry. -/
theorem next_timer_cycles_witness :
    (State.next_timer^[sampleState.timers.length] sampleState).selected_timer =
        sampleState.selected_timer ∧
      (State.next_timer^[1] sampleState).selected_timer < sampleState.timers.length := by
  refine ⟨(next_timer_cycles sampleState (by decide)).1, ?_⟩
  exact (next_timer_cycles sampleState (by decide)).2 1 (by decide)

/-- C9 (counterexample): with two arguments beyond the program name,
`State::new` still constructs the engine — one unlabeled timer, selection 0 —
identically to a start with no argument; no usage error is reported and the
process does not terminate (main.rs:65-71 only tests `args.len() == 2`). -/
theorem startup_extra_args_cex :
    State.new ["stopwatch", "alpha", "beta"] =
      { timers := [Timer.new none], selected_timer := 0, ui_update_rate_ms := 50,
        input_mode := false, input_buffer := "", show_help := true } ∧
      State.new ["stopwatch", "alpha", "beta"] = State.new ["stopwatch"] := by
  constructor <;> rfl

/-- C9 (amended): with exactly one argument beyond the program name that
argument becomes the initial timer's label; with zero or with more than one
the extra arguments are silently ignored and the initial timer is unlabeled;
in every case the engine is constructed (there is no usage error). -/
theorem startup_args_amended (p a b : String) (rest : List String) :
    (State.new (p :: a :: b :: rest)).timers = [Timer.new none] ∧
      (State.new [p, a]).timers = [Timer.new (some a)] ∧
      (State.new [p]).timers = [Timer.new none] ∧
      (State.new []).timers = [Timer.new none] := by
  refine ⟨?_, rfl, rfl, rfl⟩
  unfold State.new
  rw [dif_neg (by simp)]

/-- C10: with the selection in bounds, `set_label` stores `None` as the
selected timer's label when the input buffer is empty and `Some` of the buffer
otherwise — never `Some ""` — and it clears the buffer and leaves input
mode. -/
theorem set_label_spec (s : State) (h : s.selected_timer < s.timers.length) :
    s.set_label.timers[s.selected_timer]?.map Timer.label =
        some (if s.input_buffer.isEmpty then none else some s.input_buffer) ∧
      s.set_label.input_buffer = "" ∧
      s.set_label.input_mode = false ∧
      s.set_label.timers[s.selected_timer]?.map Timer.label ≠ some (some "") := by
  have hmod : s.set_label.timers[s.selected_timer]? =
      some { s.timers.get ⟨s.selected_timer, h⟩ with
             label := if s.input_buffer.isEmpty then none else some s.input_buffer } := by
    unfold State.set_label
    dsimp only
    rw [List.getElem?_modify_eq, List.getElem?_eq_getElem h]
    rfl
  have hval : s.set_label.timers[s.selected_timer]?.map Timer.label =
      some (if s.input_buffer.isEmpty then none else some s.input_buffer) := by
    rw [hmod]
    rfl
  refine ⟨hval, rfl, rfl, ?_⟩
  rw [hval]
  by_cases hb : s.input_buffer.isEmpty
  · simp [hb]
  · simp only [Bool.not_eq_true] at hb
    simp only [hb, Bool.false_eq_true, if_false, ne_eq, Option.some.injEq]
    intro hc
    rw [hc] at hb
    exact absurd hb (by decide)

/-- C10 (witness): `set_label` instantiated on a concrete at-capacity registry
in input mode with a non-empty buffer. -/
theorem set_label_spec_witness :
    sampleFull.set_label.timers[sampleFull.selected_timer]?.map Timer.label =
        some (if sampleFull.input_buffer.isEmpty then none
              else some sampleFull.input_buffer) ∧
      sampleFull.set_label.input_buffer = "" ∧
      sampleFull.set_label.input_mode = false ∧
      sampleFull.set_label.timers[sampleFull.selected_timer]?.map Timer.label ≠
        some (some "") :=
  set_label_spec sampleFull (by decide)
